import Mathlib

/-!
Verification development for the agent orchestration pipeline of the
ai-agent-devops-demo repository.  The JavaScript sources are shallowly
embedded: the Claude API wrapper (src/agent/claude.js) becomes a pure
function over an explicit backend oracle and per-attempt durations, the
knowledge store (src/agent/knowledge.js) becomes pure scoring/retrieval
functions plus explicit cache-state passing, and the orchestrator
(src/agent/index.js) composes them.  Machine time is modelled as
milliseconds accumulated from attempt durations and backoff sleeps.
-/

namespace AgentDemo

/-- Token usage reported by the model backend (the response.usage object:
input_tokens / output_tokens). -/
structure Usage where
  input : Nat
  output : Nat
deriving DecidableEq, Repr

/-- Successful backend response, as consumed by callClaude: the generated
text (response.content[0].text), the serving model identifier, and usage. -/
structure ApiResponse where
  text : String
  model : String
  usage : Usage
deriving DecidableEq, Repr

/-- Failing backend outcome.  The status field models the JavaScript
error.status property: none when the property is absent (undefined), as for
connection or timeout errors that never received an HTTP response. -/
structure ApiError where
  message : String
  status : Option Nat
deriving DecidableEq, Repr

/-- Truthiness of the error.status property as tested by
`error.status && isRetryableError(error)` in callClaude: undefined (none)
and 0 are falsy, every other number is truthy. -/
def statusTruthy : Option Nat → Bool
  | none => false
  | some s => s != 0

/-- Embedding of isRetryableError from src/agent/claude.js:
retryableStatuses = [429, 529]; isServerError = error.status >= 500
(false when status is undefined, as in JavaScript);
return retryableStatuses.includes(error.status) || isServerError. -/
def isRetryableError : Option Nat → Bool
  | none => false
  | some s => s == 429 || s == 529 || decide (500 ≤ s)

/-- Cost rates from src/agent/claude.js: COST_PER_TOKEN = { input: 3.0/1e6,
output: 15.0/1e6 } in USD.  JavaScript numbers are modelled as exact
rationals. -/
structure CostRates where
  input : ℚ
  output : ℚ

/-- The COST_PER_TOKEN configuration constant. -/
def COST_PER_TOKEN : CostRates :=
  { input := 3 / 1000000, output := 15 / 1000000 }

/-- MAX_RETRIES constant from src/agent/claude.js. -/
def MAX_RETRIES : Nat := 3

/-- Normalized result of one successful model call, as returned by
callClaude. -/
structure ModelCallResult where
  text : String
  model : String
  tokens : Usage
  cost_usd : ℚ
  latency_ms : Nat
deriving DecidableEq, Repr

/-- Embedding of the AgentError class: message, the preserved cause, and
statusCode = options.cause.status || null. -/
structure AgentError where
  message : String
  cause : Option ApiError
  statusCode : Option Nat
deriving DecidableEq, Repr

/-- JavaScript expression x || null on an optional number: 0 and undefined
collapse to null. -/
def jsOrNull : Option Nat → Option Nat
  | none => none
  | some s => if s = 0 then none else some s

/-- Construction new AgentError(message, { cause }) from src/agent/claude.js:
the cause is preserved and statusCode is set to cause.status || null. -/
def mkAgentError (message : String) (cause : ApiError) : AgentError :=
  { message := message, cause := some cause, statusCode := jsOrNull cause.status }

/-- Exponential backoff delay after a failed attempt:
min(1000 * 2^(attempt-1), 10000) milliseconds. -/
def backoffDelay (attempt : Nat) : Nat :=
  min (1000 * 2 ^ (attempt - 1)) 10000

/-- Result of building a ModelCallResult in the success branch of callClaude:
tokens copied from usage, cost_usd = tokens.input * COST_PER_TOKEN.input +
tokens.output * COST_PER_TOKEN.output, latency_ms = Date.now() - startTime
(the elapsed argument). -/
def mkSuccess (r : ApiResponse) (elapsed : Nat) : ModelCallResult :=
  { text := r.text
    model := r.model
    tokens := ⟨r.usage.input, r.usage.output⟩
    cost_usd := (r.usage.input : ℚ) * COST_PER_TOKEN.input
      + (r.usage.output : ℚ) * COST_PER_TOKEN.output
    latency_ms := elapsed }

/-- Observable outcome of one whole callClaude run: the returned value or
thrown AgentError, how many times the backend was invoked, and the list of
backoff delays slept between consecutive attempts. -/
structure GatewayRun where
  result : Except AgentError ModelCallResult
  invocations : Nat
  delays : List Nat

/-- Retry loop of callClaude.  The backend oracle gives the outcome of each
attempt (1-based) and dur its wall-clock duration in milliseconds; clock is
the time already elapsed since startTime.  fuel counts the attempts still
allowed including the current one, so the source condition
attempt === MAX_RETRIES corresponds to fuel = 1.  The fuel = 0 case is
unreachable from the real entry point (callClaude starts with
fuel = MAX_RETRIES = 3) and only makes the recursion total. -/
def callLoop (backend : Nat → Except ApiError ApiResponse) (dur : Nat → Nat) :
    Nat → Nat → Nat → GatewayRun
  | 0, _, _ =>
    ⟨.error ⟨"Claude API call failed after retries", none, none⟩, 0, []⟩
  | fuel + 1, attempt, clock =>
    let t := clock + dur attempt
    match backend attempt with
    | .ok r => ⟨.ok (mkSuccess r t), 1, []⟩
    | .error e =>
      if (statusTruthy e.status && isRetryableError e.status) = false ∨ fuel = 0 then
        ⟨.error (mkAgentError "Claude API call failed after retries" e), 1, []⟩
      else
        let d := backoffDelay attempt
        let rest := callLoop backend dur fuel (attempt + 1) (t + d)
        ⟨rest.result, rest.invocations + 1, d :: rest.delays⟩

/-- Embedding of callClaude from src/agent/claude.js: up to MAX_RETRIES
attempts starting at attempt 1 with the clock at startTime. -/
def callClaude (backend : Nat → Except ApiError ApiResponse) (dur : Nat → Nat) :
    GatewayRun :=
  callLoop backend dur MAX_RETRIES 1 0

/-- Sum of the durations of n consecutive attempts starting at attempt a. -/
def sumDur (dur : Nat → Nat) : Nat → Nat → Nat
  | _, 0 => 0
  | a, n + 1 => dur a + sumDur dur (a + 1) n

/-- Timeout failure as surfaced to callClaude by the HTTP client layer: a
connection-timeout error carries a message but no HTTP status (there was no
response, so error.status is undefined). -/
def timeoutError : ApiError :=
  { message := "Request timed out.", status := none }

/-- Chunk record produced by the knowledge loader (src/agent/knowledge.js). -/
structure Chunk where
  id : String
  title : String
  content : String
  source : String
deriving DecidableEq, Repr

/-- Scored chunk built by findRelevantChunks as a fresh object
{...chunk, score} — the spread operator copies the chunk fields into a new
object and adds the transient score; the cached chunk itself never gains a
score field, which is why the score lives in a separate structure here. -/
structure ScoredChunk where
  chunk : Chunk
  score : Nat
deriving DecidableEq, Repr

/-- Atom of the modelled ECMAScript regular-expression fragment: a literal
character or the dot wildcard.  scoreChunk builds its patterns with
new RegExp(term, 'g') directly from user-supplied query terms, so the
embedding models the RegExp behaviour those terms can reach: every
character is a literal except the metacharacters . * + ?, and a quantifier
with nothing before it is a SyntaxError, as in ECMAScript. -/
inductive RAtom where
  | lit (c : Char)
  | dot
deriving DecidableEq, Repr

/-- Quantifier attached to an atom: repetition bounds (max = none meaning
unbounded) and whether a trailing ? made it lazy. -/
structure RQuant where
  lo : Nat
  hi : Option Nat
  lazy : Bool
deriving DecidableEq, Repr

/-- The default quantifier: exactly one occurrence. -/
def RQuant.one : RQuant := ⟨1, some 1, false⟩

/-- Compiled pattern: a sequence of quantified atoms. -/
abbrev Regex := List (RAtom × RQuant)

/-- Parser for the modelled RegExp fragment, processing the pattern left to
right with the already-parsed items accumulated in reverse.  A quantifier
character (* + ?) must follow an unquantified atom; a ? may additionally
follow a greedy quantifier making it lazy; anything else raises the
ECMAScript "nothing to repeat" SyntaxError.  A dot becomes the wildcard
atom and every other character a literal. -/
def parseRegexAux : List Char → List (RAtom × RQuant) → Except String Regex
  | [], acc => .ok acc.reverse
  | c :: rest, acc =>
    if c = '*' ∨ c = '+' ∨ c = '?' then
      match acc with
      | [] => .error "Invalid regular expression: nothing to repeat"
      | (a, q) :: acc2 =>
        if q = RQuant.one then
          let q2 : RQuant :=
            if c = '*' then ⟨0, none, false⟩
            else if c = '+' then ⟨1, none, false⟩
            else ⟨0, some 1, false⟩
          parseRegexAux rest ((a, q2) :: acc2)
        else if c = '?' ∧ q.lazy = false then
          parseRegexAux rest ((a, { q with lazy := true }) :: acc2)
        else .error "Invalid regular expression: nothing to repeat"
    else
      let atom := if c = '.' then RAtom.dot else RAtom.lit c
      parseRegexAux rest ((atom, RQuant.one) :: acc)

/-- Compilation of a term into a pattern, modelling new RegExp(term). -/
def parseRegex (t : List Char) : Except String Regex :=
  parseRegexAux t []

/-- Whether an atom matches one character.  The ECMAScript dot matches any
character except line terminators. -/
def atomMatches : RAtom → Char → Bool
  | .lit c, d => c == d
  | .dot, d => !(d == '\n' || d == '\r' || d == '\u2028' || d == '\u2029')

/-- Length of the longest prefix whose characters all match the atom. -/
def maxTake (a : RAtom) : List Char → Nat
  | [] => 0
  | c :: t => if atomMatches a c then maxTake a t + 1 else 0

/-- Backtracking matcher anchored at the start of s: the number of
characters consumed by the leftmost match of the pattern, or none.  For a
greedy quantifier the repetition counts are tried from the largest feasible
downwards, for a lazy one upwards — the ECMAScript strategy on this
fragment, where each repetition consumes exactly one character. -/
def matchSeq : Regex → List Char → Option Nat
  | [], _ => some 0
  | (a, q) :: rest, s =>
    let avail := maxTake a s
    let top := match q.hi with
      | some m => min m avail
      | none => avail
    if top < q.lo then none
    else
      let cands := List.range' q.lo (top - q.lo + 1)
      let cands := if q.lazy then cands else cands.reverse
      cands.findSome? fun n => (matchSeq rest (s.drop n)).map (fun m => n + m)

/-- Scanner for String.prototype.match with the global flag: scan left to
right, counting the leftmost match at each position and resuming after it,
advancing by one position after a failed or zero-length match (the
lastIndex rule).  The fuel argument only makes the recursion structural;
every step either shortens the input or ends it, so any fuel exceeding the
input length is enough and the entry point below supplies length + 1. -/
def countFromAux (r : Regex) : Nat → List Char → Nat
  | 0, _ => 0
  | _ + 1, [] => if (matchSeq r []).isSome then 1 else 0
  | fuel + 1, c :: t =>
    match matchSeq r (c :: t) with
    | some n => countFromAux r fuel ((c :: t).drop (max n 1)) + 1
    | none => countFromAux r fuel t

/-- Match count of a compiled pattern over a text, the value of
(text.match(new RegExp(term, 'g')) || []).length. -/
def countMatches (r : Regex) (s : List Char) : Nat :=
  countFromAux r (s.length + 1) s

/-- Model of String.prototype.toLowerCase, applied per character. -/
def jsToLower (cs : List Char) : List Char :=
  cs.map Char.toLower

/-- Splitting at every character satisfying the predicate, keeping the
(possibly empty) segments between separators. -/
def splitChars (p : Char → Bool) : List Char → List (List Char)
  | [] => [[]]
  | c :: rest =>
    if p c then [] :: splitChars p rest
    else
      match splitChars p rest with
      | [] => [[c]]
      | seg :: segs => (c :: seg) :: segs

/-- Query tokenisation from scoreChunk:
query.toLowerCase().split(/\s+/).filter(t => t.length > 2).  Splitting at
every whitespace character instead of at whitespace runs only adds empty
tokens, which the length filter removes, so the filtered result coincides
with the source for the whitespace characters both sides recognise. -/
def queryTerms (query : String) : List (List Char) :=
  (splitChars (fun c => c.isWhitespace) (jsToLower query.data)).filter
    fun t => 2 < t.length

/-- Embedding of scoreChunk from src/agent/knowledge.js: for each query
term, compile it as a regular expression (propagating the SyntaxError an
invalid term raises), count its matches in the lower-cased title and in the
lower-cased title-plus-content text, and accumulate
score += titleMatches * 3 + bodyMatches. -/
def scoreChunk (query : String) (chunk : Chunk) : Except String Nat :=
  let chunkText := jsToLower (chunk.title ++ " " ++ chunk.content).data
  (queryTerms query).foldlM
    (fun score t => do
      let r ← parseRegex t
      pure (score + (3 * countMatches r (jsToLower chunk.title.data) +
        countMatches r chunkText)))
    0

/-- Scoring pass of findRelevantChunks: chunks.map(c => ({...c, score:
scoreChunk(query, c)})), evaluated left to right with the first SyntaxError
aborting the whole call. -/
def scoreAll (query : String) : List Chunk → Except String (List ScoredChunk)
  | [] => .ok []
  | c :: cs => do
    let s ← scoreChunk query c
    let rest ← scoreAll query cs
    pure (⟨c, s⟩ :: rest)

/-- Stable descending insertion: x is placed before the first element whose
score is not larger.  Array.prototype.sort with comparator
(a, b) => b.score - a.score is stable (ES2019); a stable sort under a total
comparator has a unique result — the weakly descending reordering that
preserves the relative order of equal scores — which this insertion sort
realises. -/
def insertDesc (x : ScoredChunk) : List ScoredChunk → List ScoredChunk
  | [] => [x]
  | y :: ys => if x.score < y.score then y :: insertDesc x ys else x :: y :: ys

/-- Stable sort by descending score. -/
def sortDesc : List ScoredChunk → List ScoredChunk
  | [] => []
  | x :: xs => insertDesc x (sortDesc xs)

/-- Pure core of findRelevantChunks over an already-loaded chunk list:
score every chunk, keep those with score > 0, sort by descending score
(stable), and truncate to the first topK. -/
def findRelevantChunksPure (chunks : List Chunk) (query : String) (topK : Nat) :
    Except String (List ScoredChunk) := do
  let scored ← scoreAll query chunks
  pure ((sortDesc (scored.filter fun sc => 0 < sc.score)).take topK)

/-- Module state of src/agent/knowledge.js: the chunksCache variable. -/
structure KStore where
  cache : Option (List Chunk)
deriving DecidableEq, Repr

/-- Embedding of loadKnowledge: serve the cache when populated, otherwise
parse the corpus and populate it.  The disk argument abstracts the chunks
that reading and parsing the knowledge directory would yield (the empty
list for a missing directory); the claims under study depend on the cache
discipline, not on the markdown segmentation itself. -/
def loadKnowledge (disk : List Chunk) (s : KStore) : List Chunk × KStore :=
  match s.cache with
  | some cs => (cs, s)
  | none => (disk, ⟨some disk⟩)

/-- Embedding of findRelevantChunks: load (or read the cached) chunks, then
run the pure scoring pipeline; the resulting value or exception is paired
with the store state after the call. -/
def findRelevantChunks (disk : List Chunk) (query : String) (topK : Nat)
    (s : KStore) : Except String (List ScoredChunk) × KStore :=
  let p := loadKnowledge disk s
  (findRelevantChunksPure p.1 query topK, p.2)

/-- Embedding of resetCache: drop the cached chunks. -/
def resetCache (_ : KStore) : KStore := ⟨none⟩

/-- Characters that are syntax characters (or the Annex B brace and bracket
literals) of ECMAScript regular expressions.  A term avoiding all of them
is matched purely literally, and on such terms the modelled fragment agrees
with full ECMAScript RegExp. -/
def jsRegexSpecial : List Char :=
  ['.', '*', '+', '?', '^', '$', '\\', '(', ')', '[', ']', '{', '}', '|']

/-- A plain term: one containing no regular-expression special character. -/
def plainTerm (t : List Char) : Prop :=
  ∀ c ∈ t, c ∉ jsRegexSpecial

instance plainTermDec (t : List Char) : Decidable (plainTerm t) :=
  List.decidableBAll _ t

/-- Pattern compiled from a plain term: each character a literal matched
exactly once. -/
def plainRegex (cs : List Char) : Regex :=
  cs.map fun c => (RAtom.lit c, RQuant.one)

/-- Scanner counting leftmost non-overlapping occurrences of t, advancing
past each occurrence (and by one position after a miss or when t is empty)
— the specification-side notion of an occurrence count of a literal term.
The fuel argument mirrors countFromAux. -/
def countOccAux (t : List Char) : Nat → List Char → Nat
  | 0, _ => 0
  | _ + 1, [] => if t.isPrefixOf [] then 1 else 0
  | fuel + 1, c :: s =>
    if t.isPrefixOf (c :: s) then
      countOccAux t fuel ((c :: s).drop (max t.length 1)) + 1
    else countOccAux t fuel s

/-- Occurrence count of one character sequence inside another. -/
def countOcc (t s : List Char) : Nat :=
  countOccAux t (s.length + 1) s

/-- Specification-side score contribution of one term to one chunk:
3 times its occurrences in the lower-cased title plus its occurrences in
the lower-cased combined title-and-content text. -/
def specTermScore (t : List Char) (c : Chunk) : Nat :=
  3 * countOcc t (jsToLower c.title.data) +
    countOcc t (jsToLower (c.title ++ " " ++ c.content).data)

/-- Specification-side chunk score: the sum of the per-term contributions
over the filtered query terms. -/
def specScore (q : String) (c : Chunk) : Nat :=
  ((queryTerms q).map fun t => specTermScore t c).sum

/-- Response contract of the orchestrator (src/agent/index.js). -/
structure AskResult where
  answer : String
  trace_id : String
  latency_ms : Nat
  tokens_used : Nat
  cost_usd : ℚ
  knowledge_chunks : List String
deriving DecidableEq, Repr

/-- Failure modes of one ask invocation: an AgentError rethrown from the
gateway, or the retrieval SyntaxError an invalid query term raises before
the gateway is ever reached. -/
inductive AskError where
  | agent (e : AgentError)
  | retrieval (msg : String)
deriving DecidableEq, Repr

/-- Payload handed to recordTrace for a completed interaction. -/
structure TraceRecord where
  traceId : String
  sessionId : Option String
  input : String
  output : String
  model : String
  tokens : Usage
  cost_usd : ℚ
  latency_ms : Nat
  knowledgeChunks : List String
  systemPrompt : String
deriving DecidableEq, Repr

/-- Embedding of SYSTEM_PROMPT_TEMPLATE from src/agent/index.js: the fixed
persona text with the retrieved chunks' content joined by a visible
separator. -/
def SYSTEM_PROMPT_TEMPLATE (contextChunks : List ScoredChunk) : String :=
  "You are a helpful support agent for TechCorp API.\nYou answer developer questions based strictly on the provided documentation.\n\nDOCUMENTATION CONTEXT:\n"
    ++ String.intercalate "\n\n---\n\n" (contextChunks.map fun c => c.chunk.content)
    ++ "\n\nINSTRUCTIONS:\n- Answer only questions related to TechCorp API\n- If the answer is not in the documentation, say so clearly — do not invent information\n- Keep answers concise and developer-friendly\n- Include relevant code examples when helpful\n- Cite the documentation section you used (e.g., \"According to the Authentication section...\")\n- If asked in French, respond in French; otherwise respond in English"

/-- Observable outcome of one ask invocation: the returned value or thrown
error, the knowledge-store state after the call, and the traces handed to
the Trace Recorder during the call. -/
structure AskRun where
  result : Except AskError AskResult
  store : KStore
  traces : List TraceRecord

/-- Embedding of ask from src/agent/index.js.  The gateway is abstracted as
a function of the system prompt and user message; traceId stands for the
freshly generated uuid and totalLatency for Date.now() - startTime at the
point the gateway returned.  Steps, as in the source: retrieve the top 3
chunks (a thrown retrieval error propagates as-is), build the system
prompt, call the gateway — rethrowing its AgentError unchanged with no
trace recorded — and otherwise record exactly one trace and return the
assembled AskResult. -/
def ask (disk : List Chunk) (gw : String → String → Except AgentError ModelCallResult)
    (traceId : String) (sessionId : Option String) (totalLatency : Nat)
    (question : String) (s : KStore) : AskRun :=
  let p := findRelevantChunks disk question 3 s
  match p.1 with
  | .error m => ⟨.error (.retrieval m), p.2, []⟩
  | .ok relevantChunks =>
    let chunkIds := relevantChunks.map fun c => c.chunk.id
    let systemPrompt := SYSTEM_PROMPT_TEMPLATE relevantChunks
    match gw systemPrompt question with
    | .error e => ⟨.error (.agent e), p.2, []⟩
    | .ok claudeResult =>
      ⟨.ok
        { answer := claudeResult.text
          trace_id := traceId
          latency_ms := totalLatency
          tokens_used := claudeResult.tokens.input + claudeResult.tokens.output
          cost_usd := claudeResult.cost_usd
          knowledge_chunks := chunkIds },
        p.2,
        [⟨traceId, sessionId, question, claudeResult.text, claudeResult.model,
          claudeResult.tokens, claudeResult.cost_usd, totalLatency, chunkIds,
          systemPrompt⟩]⟩

/-!  Gateway lemmas and claim theorems. -/

/-- Statuses the source classifies as retryable pass the truthiness guard
and the isRetryableError test. -/
theorem retryCheck_true (s : Nat) (h : s = 429 ∨ s = 529 ∨ 500 ≤ s) :
    (statusTruthy (some s) && isRetryableError (some s)) = true := by
  simp only [statusTruthy, isRetryableError, Bool.and_eq_true, bne_iff_ne, ne_eq,
    Bool.or_eq_true, beq_iff_eq, decide_eq_true_eq]
  omega

/-- Statuses below 500 other than 429 fail the retry classification. -/
theorem retryCheck_false (s : Nat) (h429 : s ≠ 429) (h500 : s < 500) :
    (statusTruthy (some s) && isRetryableError (some s)) = false := by
  simp only [statusTruthy, isRetryableError, Bool.and_eq_false_iff, bne_eq_false_iff_eq,
    Bool.or_eq_false_iff, beq_eq_false_iff_ne, ne_eq, decide_eq_false_iff_not]
  omega

/-- An absent status fails the truthiness guard, so the error is never
retried. -/
theorem retryCheck_none : (statusTruthy none && isRetryableError none) = false := rfl

/-- C1: for every backend that fails with a retryable status (429, 529, or
any 5xx-equivalent, i.e. status at least 500) on the first two attempts and
succeeds on the third, callClaude returns the successful result, the
backend is invoked exactly 3 times, and the delays slept between
consecutive attempts are backoffDelay 1 = 1000 ms and backoffDelay 2 =
2000 ms, following min(1000 * 2^(attempt-1), 10000). -/
theorem c1_retry_then_success
    (backend : Nat → Except ApiError ApiResponse) (dur : Nat → Nat)
    (e1 e2 : ApiError) (r : ApiResponse) (s1 s2 : Nat)
    (hb1 : backend 1 = .error e1) (hb2 : backend 2 = .error e2)
    (hb3 : backend 3 = .ok r)
    (hs1 : e1.status = some s1) (hs2 : e2.status = some s2)
    (hr1 : s1 = 429 ∨ s1 = 529 ∨ 500 ≤ s1)
    (hr2 : s2 = 429 ∨ s2 = 529 ∨ 500 ≤ s2) :
    (callClaude backend dur).invocations = 3 ∧
    (callClaude backend dur).delays = [backoffDelay 1, backoffDelay 2] ∧
    backoffDelay 1 = 1000 ∧ backoffDelay 2 = 2000 ∧
    ∃ res, (callClaude backend dur).result = .ok res ∧
      res.text = r.text ∧ res.model = r.model ∧ res.tokens = r.usage := by
  have h1 : (statusTruthy e1.status && isRetryableError e1.status) = true := by
    rw [hs1]; exact retryCheck_true s1 hr1
  have h2 : (statusTruthy e2.status && isRetryableError e2.status) = true := by
    rw [hs2]; exact retryCheck_true s2 hr2
  unfold callClaude MAX_RETRIES
  simp only [callLoop, hb1, hb2, hb3, h1, h2, Bool.true_eq_false, false_or,
    OfNat.ofNat_ne_zero, if_false, Nat.succ_ne_zero, reduceIte]
  exact ⟨trivial, trivial, rfl, rfl, ⟨_, rfl, rfl, rfl, rfl⟩⟩

/-- Witness for C1 at a backend failing twice with 529 then succeeding. -/
theorem c1_retry_then_success_witness :
    (callClaude (fun a => if a ≤ 2 then .error ⟨"overloaded", some 529⟩
        else .ok ⟨"hi", "m", ⟨1, 2⟩⟩) (fun _ => 10)).invocations = 3 ∧
    (callClaude (fun a => if a ≤ 2 then .error ⟨"overloaded", some 529⟩
        else .ok ⟨"hi", "m", ⟨1, 2⟩⟩) (fun _ => 10)).delays =
      [backoffDelay 1, backoffDelay 2] ∧
    backoffDelay 1 = 1000 ∧ backoffDelay 2 = 2000 ∧
    ∃ res, (callClaude (fun a => if a ≤ 2 then .error ⟨"overloaded", some 529⟩
        else .ok ⟨"hi", "m", ⟨1, 2⟩⟩) (fun _ => 10)).result = .ok res ∧
      res.text = "hi" ∧ res.model = "m" ∧ res.tokens = ⟨1, 2⟩ :=
  c1_retry_then_success _ _ ⟨"overloaded", some 529⟩ ⟨"overloaded", some 529⟩
    ⟨"hi", "m", ⟨1, 2⟩⟩ 529 529 rfl rfl rfl rfl rfl (Or.inr (Or.inl rfl))
    (Or.inr (Or.inl rfl))

/-- C2: for every backend whose first attempt fails with a non-retryable
status (any status below 500 other than 429; 529 is at least 500),
callClaude stops after a single backend invocation with no backoff sleeps
and throws an AgentError whose cause is the original failing error and
whose statusCode carries that status whenever it is a truthy value. -/
theorem c2_nonretryable_immediate
    (backend : Nat → Except ApiError ApiResponse) (dur : Nat → Nat)
    (e : ApiError) (s : Nat)
    (hb : backend 1 = .error e) (hs : e.status = some s)
    (h429 : s ≠ 429) (h500 : s < 500) :
    (callClaude backend dur).result =
      .error (mkAgentError "Claude API call failed after retries" e) ∧
    (callClaude backend dur).invocations = 1 ∧
    (callClaude backend dur).delays = [] ∧
    (mkAgentError "Claude API call failed after retries" e).cause = some e ∧
    (s ≠ 0 → (mkAgentError "Claude API call failed after retries" e).statusCode = some s) := by
  have hf : (statusTruthy e.status && isRetryableError e.status) = false := by
    rw [hs]; exact retryCheck_false s h429 h500
  unfold callClaude MAX_RETRIES
  simp only [callLoop, hb, hf, true_or, if_true, reduceIte]
  refine ⟨?_, ?_, ?_, ?_, fun h0 => ?_⟩ <;>
    first
      | trivial
      | simp [mkAgentError, jsOrNull, hs, h0]

/-- Witness for C2 at a backend failing with an authentication status 401. -/
theorem c2_nonretryable_immediate_witness :
    (callClaude (fun _ => .error ⟨"Invalid API key", some 401⟩) (fun _ => 10)).result =
      .error (mkAgentError "Claude API call failed after retries"
        ⟨"Invalid API key", some 401⟩) ∧
    (callClaude (fun _ => .error ⟨"Invalid API key", some 401⟩) (fun _ => 10)).invocations = 1 ∧
    (callClaude (fun _ => .error ⟨"Invalid API key", some 401⟩) (fun _ => 10)).delays = [] ∧
    (mkAgentError "Claude API call failed after retries"
      ⟨"Invalid API key", some 401⟩).cause = some ⟨"Invalid API key", some 401⟩ ∧
    ((401 : Nat) ≠ 0 → (mkAgentError "Claude API call failed after retries"
      ⟨"Invalid API key", some 401⟩).statusCode = some 401) :=
  c2_nonretryable_immediate _ _ ⟨"Invalid API key", some 401⟩ 401 rfl rfl
    (by decide) (by decide)

/-- C3 counterexample: a backend that times out on every attempt (the
timeout error carries no HTTP status) is not retried at all — callClaude
performs a single invocation, sleeps no backoff delay, and throws — whereas
the claim asserts the gateway retries a timed-out attempt with backoff
while attempts remain. -/
theorem c3_timeout_retry_counterexample :
    (callClaude (fun _ => .error timeoutError) (fun _ => 1)).invocations = 1 ∧
    (callClaude (fun _ => .error timeoutError) (fun _ => 1)).delays = [] ∧
    (callClaude (fun _ => .error timeoutError) (fun _ => 1)).result =
      .error (mkAgentError "Claude API call failed after retries" timeoutError) :=
  ⟨rfl, rfl, rfl⟩

/-- C3 amended: an attempt failing with a status-less error — as a per-call
timeout is, since the timeout error never received an HTTP response — is
classified as non-retryable by the error.status truthiness guard, so
callClaude fails immediately after that single invocation with an
AgentError whose cause is the timeout error, instead of retrying. -/
theorem c3_timeout_single_attempt
    (backend : Nat → Except ApiError ApiResponse) (dur : Nat → Nat)
    (e : ApiError) (hb : backend 1 = .error e) (hs : e.status = none) :
    (callClaude backend dur).result =
      .error (mkAgentError "Claude API call failed after retries" e) ∧
    (callClaude backend dur).invocations = 1 ∧
    (callClaude backend dur).delays = [] := by
  have hf : (statusTruthy e.status && isRetryableError e.status) = false := by
    rw [hs]; rfl
  unfold callClaude MAX_RETRIES
  simp only [callLoop, hb, hf, true_or, if_true, reduceIte]
  refine ⟨?_, ?_, ?_⟩ <;> trivial

/-- Witness for the amended C3 at a backend that times out. -/
theorem c3_timeout_single_attempt_witness :
    (callClaude (fun _ => .error timeoutError) (fun _ => 2)).result =
      .error (mkAgentError "Claude API call failed after retries" timeoutError) ∧
    (callClaude (fun _ => .error timeoutError) (fun _ => 2)).invocations = 1 ∧
    (callClaude (fun _ => .error timeoutError) (fun _ => 2)).delays = [] :=
  c3_timeout_single_attempt _ _ timeoutError rfl rfl

/-- When the retry loop returns a value, its latency_ms is the clock at
entry plus the durations of all attempts it performed plus all backoff
delays it slept. -/
theorem callLoop_ok_latency (backend : Nat → Except ApiError ApiResponse)
    (dur : Nat → Nat) :
    ∀ fuel attempt clock res,
      (callLoop backend dur fuel attempt clock).result = .ok res →
      res.latency_ms = clock +
        sumDur dur attempt (callLoop backend dur fuel attempt clock).invocations +
        (callLoop backend dur fuel attempt clock).delays.sum := by
  intro fuel
  induction fuel with
  | zero =>
    intro a c res h
    simp only [callLoop] at h
    exact (Except.noConfusion h)
  | succ fuel ih =>
    intro a c res h
    cases hba : backend a with
    | ok r =>
      simp only [callLoop, hba] at h ⊢
      cases h
      simp [mkSuccess, sumDur]
    | error e =>
      by_cases hcond :
          (statusTruthy e.status && isRetryableError e.status) = false ∨ fuel = 0
      · simp only [callLoop, hba, if_pos hcond] at h
        exact (Except.noConfusion h)
      · simp only [callLoop, hba, if_neg hcond] at h ⊢
        have := ih (a + 1) (c + dur a + backoffDelay a) res h
        simp only [sumDur, List.sum_cons]
        omega

/-- C6 counterexample: a backend failing once with 429 (attempt duration
50 ms) and succeeding on attempt 2 (duration 70 ms) yields latency_ms =
50 + 1000 + 70 = 1120 — the elapsed time since callClaude started,
including the failed attempt and the backoff sleep — not the 70 ms the
succeeding attempt itself took. -/
theorem c6_latency_counterexample :
    ((callClaude
        (fun a => if a = 1 then .error ⟨"rate limited", some 429⟩
          else .ok ⟨"ok", "m", ⟨10, 20⟩⟩)
        (fun a => if a = 1 then 50 else 70)).result.map
      fun res => res.latency_ms) = .ok 1120 ∧
    (fun a : Nat => if a = 1 then 50 else 70) 2 = 70 ∧ (1120 : Nat) ≠ 70 :=
  ⟨rfl, rfl, by decide⟩

/-- C6 amended: for every successful callClaude run, latency_ms equals the
wall-clock time elapsed since callClaude started — the durations of every
attempt performed (failed ones included) plus every backoff delay slept —
because startTime is captured once before the retry loop. -/
theorem c6_latency_includes_retries (backend : Nat → Except ApiError ApiResponse)
    (dur : Nat → Nat) (res : ModelCallResult)
    (h : (callClaude backend dur).result = .ok res) :
    res.latency_ms = sumDur dur 1 (callClaude backend dur).invocations +
      (callClaude backend dur).delays.sum := by
  have := callLoop_ok_latency backend dur MAX_RETRIES 1 0 res h
  simpa [callClaude] using this

/-- Witness for the amended C6 at a backend succeeding immediately. -/
theorem c6_latency_includes_retries_witness :
    (mkSuccess ⟨"t", "m", ⟨1, 1⟩⟩ 7).latency_ms =
      sumDur (fun _ => 7) 1
        (callClaude (fun _ => .ok ⟨"t", "m", ⟨1, 1⟩⟩) (fun _ => 7)).invocations +
      (callClaude (fun _ => .ok ⟨"t", "m", ⟨1, 1⟩⟩) (fun _ => 7)).delays.sum :=
  c6_latency_includes_retries _ _ _ rfl

/-- Every value the retry loop returns was built by mkSuccess. -/
theorem callLoop_ok_shape (backend : Nat → Except ApiError ApiResponse)
    (dur : Nat → Nat) :
    ∀ fuel attempt clock res,
      (callLoop backend dur fuel attempt clock).result = .ok res →
      ∃ r elapsed, res = mkSuccess r elapsed := by
  intro fuel
  induction fuel with
  | zero =>
    intro a c res h
    simp only [callLoop] at h
    exact (Except.noConfusion h)
  | succ fuel ih =>
    intro a c res h
    cases hba : backend a with
    | ok r =>
      simp only [callLoop, hba] at h
      cases h
      exact ⟨r, _, rfl⟩
    | error e =>
      by_cases hcond :
          (statusTruthy e.status && isRetryableError e.status) = false ∨ fuel = 0
      · simp only [callLoop, hba, if_pos hcond] at h
        exact (Except.noConfusion h)
      · simp only [callLoop, hba, if_neg hcond] at h
        exact ih (a + 1) (c + dur a + backoffDelay a) res h

/-- C7: every successful callClaude result prices tokens linearly and
exactly, cost_usd = tokens.input * (3/1e6) + tokens.output * (15/1e6) USD;
in particular one million input and one million output tokens cost exactly
18 USD. -/
theorem c7_cost_linear (backend : Nat → Except ApiError ApiResponse)
    (dur : Nat → Nat) (res : ModelCallResult)
    (h : (callClaude backend dur).result = .ok res) :
    res.cost_usd = (res.tokens.input : ℚ) * (3 / 1000000) +
      (res.tokens.output : ℚ) * (15 / 1000000) ∧
    (res.tokens = ⟨1000000, 1000000⟩ → res.cost_usd = 18) := by
  obtain ⟨r, elapsed, rfl⟩ := callLoop_ok_shape backend dur MAX_RETRIES 1 0 res h
  constructor
  · simp [mkSuccess, COST_PER_TOKEN]
  · intro htok
    have h1 : r.usage.input = 1000000 := congrArg Usage.input htok
    have h2 : r.usage.output = 1000000 := congrArg Usage.output htok
    simp only [mkSuccess, COST_PER_TOKEN, h1, h2]
    norm_num

/-- Witness for C7 at a backend reporting one million tokens each way. -/
theorem c7_cost_linear_witness :
    (mkSuccess ⟨"t", "m", ⟨1000000, 1000000⟩⟩ 7).cost_usd =
      ((mkSuccess ⟨"t", "m", ⟨1000000, 1000000⟩⟩ 7).tokens.input : ℚ) * (3 / 1000000) +
      ((mkSuccess ⟨"t", "m", ⟨1000000, 1000000⟩⟩ 7).tokens.output : ℚ) * (15 / 1000000) ∧
    (mkSuccess ⟨"t", "m", ⟨1000000, 1000000⟩⟩ 7).cost_usd = 18 :=
  ⟨(c7_cost_linear (fun _ => .ok ⟨"t", "m", ⟨1000000, 1000000⟩⟩) (fun _ => 7) _ rfl).1,
    (c7_cost_linear (fun _ => .ok ⟨"t", "m", ⟨1000000, 1000000⟩⟩) (fun _ => 7) _ rfl).2 rfl⟩

/-!  Knowledge-store lemmas: on terms free of special characters the regex
pipeline counts exactly the literal occurrences. -/

/-- Parsing a pattern without special characters yields one literal atom
per character, in order, appended to the reversed accumulator. -/
theorem parseRegexAux_plain :
    ∀ (cs : List Char) (acc : List (RAtom × RQuant)),
      (∀ c ∈ cs, c ∉ jsRegexSpecial) →
      parseRegexAux cs acc = .ok (acc.reverse ++ plainRegex cs) := by
  intro cs
  induction cs with
  | nil =>
    intro acc h
    simp [parseRegexAux, plainRegex]
  | cons c cs ih =>
    intro acc h
    have hc : c ∉ jsRegexSpecial := h c (List.mem_cons_self c cs)
    have hq : ¬(c = '*' ∨ c = '+' ∨ c = '?') := by
      intro hor
      apply hc
      rcases hor with rfl | rfl | rfl <;> simp [jsRegexSpecial]
    have hdot : ¬(c = '.') := by
      intro hdot
      apply hc
      rw [hdot]
      simp [jsRegexSpecial]
    simp only [parseRegexAux, if_neg hq, if_neg hdot]
    rw [ih ((RAtom.lit c, RQuant.one) :: acc) (fun d hd => h d (List.mem_cons_of_mem c hd))]
    simp [plainRegex]

/-- Compiling a plain term succeeds and produces the literal pattern. -/
theorem parseRegex_plain (t : List Char) (h : plainTerm t) :
    parseRegex t = .ok (plainRegex t) := by
  unfold parseRegex
  rw [parseRegexAux_plain t [] h]
  simp

/-- A literal atom with the default quantifier never matches the empty
input. -/
theorem matchSeq_lit_one_nil (c : Char) (rest : Regex) :
    matchSeq ((RAtom.lit c, RQuant.one) :: rest) [] = none := rfl

/-- A literal atom with the default quantifier consumes exactly the
matching head character. -/
theorem matchSeq_lit_one_cons (c : Char) (rest : Regex) (d : Char) (s2 : List Char) :
    matchSeq ((RAtom.lit c, RQuant.one) :: rest) (d :: s2) =
      if c = d then (matchSeq rest s2).map (fun m => 1 + m) else none := by
  by_cases hcd : c = d
  · subst hcd
    rw [if_pos rfl]
    have havail : maxTake (RAtom.lit c) (c :: s2) = maxTake (RAtom.lit c) s2 + 1 := by
      simp [maxTake, atomMatches]
    have hmin : min 1 (maxTake (RAtom.lit c) s2 + 1) = 1 := by omega
    simp only [matchSeq, RQuant.one, havail, hmin]
    have h11 : ¬(1 < 1) := by omega
    rw [if_neg h11]
    simp [List.range', List.findSome?]
    cases hm : matchSeq rest s2 <;> simp [hm]
  · rw [if_neg hcd]
    have havail : maxTake (RAtom.lit c) (d :: s2) = 0 := by
      simp [maxTake, atomMatches, hcd]
    simp only [matchSeq, RQuant.one, havail]
    norm_num

/-- The literal pattern of a plain term matches exactly when the term is a
prefix, consuming its length. -/
theorem matchSeq_plain :
    ∀ (cs s : List Char),
      matchSeq (plainRegex cs) s =
        if cs.isPrefixOf s then some cs.length else none := by
  intro cs
  induction cs with
  | nil =>
    intro s
    simp [plainRegex, matchSeq, List.isPrefixOf]
  | cons c cs ih =>
    intro s
    rw [show plainRegex (c :: cs) = (RAtom.lit c, RQuant.one) :: plainRegex cs from rfl]
    cases s with
    | nil =>
      rw [matchSeq_lit_one_nil]
      simp [List.isPrefixOf]
    | cons d s2 =>
      rw [matchSeq_lit_one_cons, ih s2]
      by_cases hcd : c = d
      · subst hcd
        by_cases hp : cs.isPrefixOf s2 <;>
          simp [hp, List.isPrefixOf, Nat.add_comm]
      · have hb : (c == d) = false := by simp [hcd]
        simp [hcd, List.isPrefixOf, hb]

/-- Global match counting of a plain term pattern is literal
non-overlapping occurrence counting, at every fuel. -/
theorem countFromAux_plain (cs : List Char) :
    ∀ (fuel : Nat) (s : List Char),
      countFromAux (plainRegex cs) fuel s = countOccAux cs fuel s := by
  intro fuel
  induction fuel with
  | zero =>
    intro s
    rfl
  | succ fuel ih =>
    intro s
    cases s with
    | nil =>
      show (if (matchSeq (plainRegex cs) []).isSome then 1 else 0) = _
      rw [matchSeq_plain]
      by_cases hp : cs.isPrefixOf [] <;> simp [hp, countOccAux]
    | cons d s2 =>
      show (match matchSeq (plainRegex cs) (d :: s2) with
        | some n => countFromAux (plainRegex cs) fuel ((d :: s2).drop (max n 1)) + 1
        | none => countFromAux (plainRegex cs) fuel s2) = _
      rw [matchSeq_plain]
      by_cases hp : cs.isPrefixOf (d :: s2)
      · rw [if_pos hp]
        show countFromAux (plainRegex cs) fuel ((d :: s2).drop (max cs.length 1)) + 1 = _
        rw [ih, countOccAux, if_pos hp]
      · rw [if_neg hp]
        show countFromAux (plainRegex cs) fuel s2 = _
        rw [ih, countOccAux, if_neg hp]

/-- Match counting for a plain term coincides with occurrence counting. -/
theorem countMatches_plain (t s : List Char) :
    countMatches (plainRegex t) s = countOcc t s :=
  countFromAux_plain t (s.length + 1) s

/-- Membership in a stable insertion. -/
theorem mem_insertDesc {x y : ScoredChunk} :
    ∀ {l : List ScoredChunk}, y ∈ insertDesc x l ↔ y = x ∨ y ∈ l := by
  intro l
  induction l with
  | nil => simp [insertDesc]
  | cons z zs ih =>
    by_cases hxz : x.score < z.score
    · rw [insertDesc, if_pos hxz]
      simp only [List.mem_cons, ih]
      try tauto
    · rw [insertDesc, if_neg hxz]
      simp only [List.mem_cons]
      try tauto

/-- Membership in the stable sort. -/
theorem mem_sortDesc {y : ScoredChunk} :
    ∀ {l : List ScoredChunk}, y ∈ sortDesc l ↔ y ∈ l := by
  intro l
  induction l with
  | nil => simp [sortDesc]
  | cons z zs ih =>
    rw [sortDesc, mem_insertDesc]
    simp only [List.mem_cons, ih]
    try tauto

/-- Stable insertion preserves the weakly descending order. -/
theorem insertDesc_pairwise (x : ScoredChunk) :
    ∀ {l : List ScoredChunk}, l.Pairwise (fun a b => b.score ≤ a.score) →
      (insertDesc x l).Pairwise (fun a b => b.score ≤ a.score) := by
  intro l
  induction l with
  | nil =>
    intro _
    simp [insertDesc]
  | cons y ys ih =>
    intro hl
    rcases List.pairwise_cons.mp hl with ⟨hy, hys⟩
    by_cases hxy : x.score < y.score
    · rw [insertDesc, if_pos hxy]
      refine List.pairwise_cons.mpr ⟨?_, ih hys⟩
      intro z hz
      rcases mem_insertDesc.mp hz with rfl | hz
      · exact Nat.le_of_lt hxy
      · exact hy z hz
    · rw [insertDesc, if_neg hxy]
      refine List.pairwise_cons.mpr ⟨?_, hl⟩
      intro z hz
      rcases List.mem_cons.mp hz with rfl | hz
      · exact Nat.le_of_not_lt hxy
      · exact le_trans (hy z hz) (Nat.le_of_not_lt hxy)

/-- The stable sort is weakly descending in score. -/
theorem sortDesc_pairwise :
    ∀ l : List ScoredChunk, (sortDesc l).Pairwise (fun a b => b.score ≤ a.score) := by
  intro l
  induction l with
  | nil => simp [sortDesc]
  | cons x xs ih => exact insertDesc_pairwise x ih

/-- Stability of the insertion: restricted to any one score value, inserting
keeps the element order of consing, because the elements the insertion
passes over all have strictly larger scores. -/
theorem filter_insertDesc (x : ScoredChunk) (v : Nat) :
    ∀ (l : List ScoredChunk),
      (insertDesc x l).filter (fun sc => sc.score == v) =
        ((x :: l).filter fun sc => sc.score == v) := by
  intro l
  induction l with
  | nil => rfl
  | cons y ys ih =>
    by_cases hxy : x.score < y.score
    · rw [insertDesc, if_pos hxy]
      by_cases hyv : y.score = v
      · have hxv : ¬(x.score = v) := by omega
        simp [List.filter_cons, hyv, hxv, ih]
      · simp [List.filter_cons, hyv, ih]
    · rw [insertDesc, if_neg hxy]

/-- Stability of the stable sort: restricted to any one score value the
sorted list equals the input list. -/
theorem filter_sortDesc (v : Nat) :
    ∀ (l : List ScoredChunk),
      (sortDesc l).filter (fun sc => sc.score == v) =
        l.filter (fun sc => sc.score == v) := by
  intro l
  induction l with
  | nil => rfl
  | cons x xs ih =>
    rw [sortDesc, filter_insertDesc]
    simp [List.filter_cons, ih]

/-- Shape of a successful scoring pass: the scored list carries the input
chunks in order, each paired with its scoreChunk value. -/
theorem scoreAll_ok (q : String) :
    ∀ (chunks : List Chunk) (scored : List ScoredChunk),
      scoreAll q chunks = .ok scored →
      scored.map ScoredChunk.chunk = chunks ∧
      ∀ sc ∈ scored, scoreChunk q sc.chunk = .ok sc.score := by
  intro chunks
  induction chunks with
  | nil =>
    intro scored h
    simp only [scoreAll] at h
    cases h
    simp
  | cons c cs ih =>
    intro scored h
    simp only [scoreAll] at h
    cases hsc : scoreChunk q c with
    | error m =>
      rw [hsc] at h
      exact (Except.noConfusion h)
    | ok sc =>
      rw [hsc] at h
      cases hrest : scoreAll q cs with
      | error m =>
        rw [hrest] at h
        exact (Except.noConfusion h)
      | ok rest =>
        rw [hrest] at h
        cases h
        rcases ih rest hrest with ⟨hmap, hall⟩
        constructor
        · simp [hmap]
        · intro x hx
          rcases List.mem_cons.mp hx with rfl | hx
          · exact hsc
          · exact hall x hx

/-- Binding a successful Except value applies the continuation. -/
theorem except_ok_bind {ε α β : Type} (x : α) (f : α → Except ε β) :
    (Except.ok x >>= f) = f x := rfl

/-- Binding a pure Except value applies the continuation. -/
theorem except_pure_bind {ε α β : Type} (x : α) (f : α → Except ε β) :
    (pure x >>= f : Except ε β) = f x := rfl

/-- Accumulating fold of scoreChunk over plain terms: every pattern
compiles and contributes its literal occurrence counts. -/
theorem scoreFold_plain (c : Chunk) :
    ∀ (ts : List (List Char)) (acc : Nat),
      (∀ t ∈ ts, plainTerm t) →
      ts.foldlM
        (fun score t => do
          let r ← parseRegex t
          pure (score + (3 * countMatches r (jsToLower c.title.data) +
            countMatches r (jsToLower (c.title ++ " " ++ c.content).data)))) acc
      = Except.ok (acc + (ts.map fun t => specTermScore t c).sum) := by
  intro ts
  induction ts with
  | nil =>
    intro acc h
    simp only [List.foldlM_nil, List.map_nil, List.sum_nil, Nat.add_zero]
    rfl
  | cons t ts ih =>
    intro acc h
    simp only [List.foldlM_cons, parseRegex_plain t (h t (List.mem_cons_self t ts)),
      except_ok_bind, except_pure_bind, countMatches_plain]
    rw [ih _ (fun u hu => h u (List.mem_cons_of_mem t hu))]
    rw [List.map_cons, List.sum_cons]
    congr 1
    simp only [specTermScore]
    omega

/-- C5 counterexample: occurrence counts and the implemented regex match
counts disagree, because each term is used as a pattern, not as literal
text.  For the chunk with title "abc" and content "zzz", the query "a.c"
scores 3*1 + 1 = 4 (the pattern a.c matches abc) although the term "a.c"
occurs zero times in the title and in the combined text, so the
occurrence-count formula yields 0; and for the query "c++" scoreChunk does
not accumulate anything at all — it throws a SyntaxError. -/
theorem c5_occurrence_counterexample :
    scoreChunk "a.c" ⟨"x", "abc", "zzz", "s"⟩ = .ok 4 ∧
    specScore "a.c" ⟨"x", "abc", "zzz", "s"⟩ = 0 ∧
    scoreChunk "c++" ⟨"x", "abc", "zzz", "s"⟩ =
      .error "Invalid regular expression: nothing to repeat" ∧
    (Except.ok 4 : Except String Nat) ≠ Except.ok 0 :=
  ⟨rfl, rfl, rfl, by simp⟩

/-- C5 amended: for every chunk and every query all of whose filtered terms
(lower-cased, length > 2) contain no regular-expression special character,
scoreChunk accumulates per term exactly 3 times the term's occurrence
count in the lower-cased title plus 1 times its occurrence count in the
lower-cased combined title-and-content text — so a title occurrence
contributes 3 + 1 = 4 while a content-only occurrence contributes 1,
the 3:1 extra weighting of title matches. -/
theorem c5_score_formula (q : String) (c : Chunk)
    (h : ∀ t ∈ queryTerms q, plainTerm t) :
    scoreChunk q c = .ok (specScore q c) := by
  have h2 := scoreFold_plain c (queryTerms q) 0 h
  rw [Nat.zero_add] at h2
  exact h2

/-- Witness for the amended C5 on a concrete chunk and query. -/
theorem c5_score_formula_witness :
    scoreChunk "top tip" ⟨"i", "top", "top tip", "s"⟩ =
      .ok (specScore "top tip" ⟨"i", "top", "top tip", "s"⟩) :=
  c5_score_formula "top tip" ⟨"i", "top", "top tip", "s"⟩ (by decide)

/-- C4 counterexample: a query sharing no vocabulary with the corpus does
not always yield an empty sequence — on the loaded corpus below the query
"c++" makes findRelevantChunks throw a SyntaxError instead of returning a
(empty or other) sequence of scored chunks. -/
theorem c4_total_counterexample :
    (findRelevantChunks [] "c++" 3 ⟨some [⟨"a", "t", "b", ""⟩]⟩).1 =
      .error "Invalid regular expression: nothing to repeat" := rfl

/-- C4 amended: whenever findRelevantChunks returns a sequence (that is,
every filtered query term compiles as a regular expression), the sequence
contains only chunks with score strictly greater than 0, is weakly
descending in score, has at most topK entries, breaks score ties by the
stable order in which the chunks were loaded (restricted to any one score
value, the returned chunks form a subsequence of the loaded corpus), and
is empty whenever every loaded chunk scores 0 — in particular for queries
sharing no vocabulary with any chunk. -/
theorem c4_ranking (disk : List Chunk) (s : KStore) (q : String) (k : Nat)
    (l : List ScoredChunk)
    (h : (findRelevantChunks disk q k s).1 = .ok l) :
    (∀ sc ∈ l, 0 < sc.score) ∧
    l.Pairwise (fun a b => b.score ≤ a.score) ∧
    l.length ≤ k ∧
    (∀ v, ((l.filter fun sc => sc.score == v).map ScoredChunk.chunk).Sublist
      (loadKnowledge disk s).1) ∧
    ((∀ c ∈ (loadKnowledge disk s).1, scoreChunk q c = .ok 0) → l = []) := by
  have hp : findRelevantChunksPure (loadKnowledge disk s).1 q k = .ok l := h
  unfold findRelevantChunksPure at hp
  cases hsa : scoreAll q (loadKnowledge disk s).1 with
  | error m =>
    rw [hsa] at hp
    exact (Except.noConfusion hp)
  | ok scored =>
    rw [hsa] at hp
    rw [except_ok_bind] at hp
    have hl : l = (sortDesc (scored.filter fun sc => 0 < sc.score)).take k := by
      have := hp
      injection this with h2
      exact h2.symm
    subst hl
    obtain ⟨hmap, hall⟩ := scoreAll_ok q _ scored hsa
    refine ⟨?_, ?_, ?_, ?_, ?_⟩
    · intro sc hsc
      have h1 : sc ∈ sortDesc (scored.filter fun sc => 0 < sc.score) :=
        List.take_subset _ _ hsc
      have h2 : sc ∈ scored.filter fun sc => 0 < sc.score := mem_sortDesc.mp h1
      simpa using List.of_mem_filter h2
    · exact List.Pairwise.sublist (List.take_sublist _ _) (sortDesc_pairwise _)
    · exact List.length_take_le _ _
    · intro v
      have h1 := List.Sublist.filter (fun sc => sc.score == v)
        (List.take_sublist k (sortDesc (scored.filter fun sc => 0 < sc.score)))
      rw [filter_sortDesc] at h1
      have h2 := (List.filter_sublist
          (p := fun sc => sc.score == v) (scored.filter fun sc => 0 < sc.score)).trans
        (List.filter_sublist scored)
      have h3 := (h1.trans h2).map ScoredChunk.chunk
      rw [hmap] at h3
      exact h3
    · intro hz
      have hnil : scored.filter (fun sc => 0 < sc.score) = [] := by
        rw [List.filter_eq_nil_iff]
        intro sc hsc
        have hc : sc.chunk ∈ (loadKnowledge disk s).1 := by
          rw [← hmap]
          exact List.mem_map_of_mem _ hsc
        have hok := hall sc hsc
        rw [hz sc.chunk hc] at hok
        injection hok with h0
        simp [← h0]
      rw [hnil]
      simp [sortDesc]

/-- Witness for the amended C4 on a two-chunk corpus. -/
theorem c4_ranking_witness :
    (∀ sc ∈ [(⟨⟨"a", "auth", "use auth", ""⟩, 5⟩ : ScoredChunk)], 0 < sc.score) ∧
    ([(⟨⟨"a", "auth", "use auth", ""⟩, 5⟩ : ScoredChunk)].Pairwise
      fun a b => b.score ≤ a.score) ∧
    ([(⟨⟨"a", "auth", "use auth", ""⟩, 5⟩ : ScoredChunk)].length ≤ 1) ∧
    (∀ v, (([(⟨⟨"a", "auth", "use auth", ""⟩, 5⟩ : ScoredChunk)].filter
        fun sc => sc.score == v).map ScoredChunk.chunk).Sublist
      (loadKnowledge []
        ⟨some [⟨"a", "auth", "use auth", ""⟩, ⟨"b", "misc", "none", ""⟩]⟩).1) ∧
    ((∀ c ∈ (loadKnowledge []
        ⟨some [⟨"a", "auth", "use auth", ""⟩, ⟨"b", "misc", "none", ""⟩]⟩).1,
      scoreChunk "auth" c = .ok 0) →
      [(⟨⟨"a", "auth", "use auth", ""⟩, 5⟩ : ScoredChunk)] = []) :=
  c4_ranking [] ⟨some [⟨"a", "auth", "use auth", ""⟩, ⟨"b", "misc", "none", ""⟩]⟩
    "auth" 1 [⟨⟨"a", "auth", "use auth", ""⟩, 5⟩] rfl

/-- C9: findRelevantChunks is not total over query strings — the query
"c++" (whose single term is an invalid pattern) makes it throw the
SyntaxError instead of returning a sequence — and terms containing valid
metacharacters are matched as patterns, not literal text: the term "t.p"
scores 3*2 + 2 = 8 against the chunk titled "tip top" although the literal
string "t.p" occurs nowhere in it. -/
theorem c9_regex_nontotality :
    (findRelevantChunks [] "c++" 3 ⟨some [⟨"k#s", "set", "body", "k"⟩]⟩).1 =
      .error "Invalid regular expression: nothing to repeat" ∧
    scoreChunk "t.p" ⟨"i", "tip top", "", "s"⟩ = .ok 8 ∧
    countOcc "t.p".data (jsToLower (("tip top" : String) ++ " " ++ "").data) = 0 :=
  ⟨rfl, rfl, rfl⟩

/-- After loadKnowledge runs, the cache holds exactly the chunk list it
returned. -/
theorem loadKnowledge_cache (disk : List Chunk) (s : KStore) :
    (loadKnowledge disk s).2.cache = some (loadKnowledge disk s).1 := by
  cases hc : s.cache <;> simp [loadKnowledge, hc]

/-- A retrieval against a populated cache leaves the store untouched. -/
theorem findRelevantChunks_store_id (disk : List Chunk) (q : String) (k : Nat)
    (st : KStore) (h : st.cache.isSome) :
    (findRelevantChunks disk q k st).2 = st := by
  cases hc : st.cache with
  | none =>
    rw [hc] at h
    simp at h
  | some cs => simp [findRelevantChunks, loadKnowledge, hc]

/-- C10: findRelevantChunks never mutates the cached chunks — after any
number of queries (each building fresh scored copies), the store still
holds exactly the chunk list loadKnowledge produced, with all its id,
title, content and source fields; the transient score lives only in the
ScoredChunk results, and chunks in the cache have no score field at all. -/
theorem c10_cache_frame (disk : List Chunk) (s : KStore)
    (qs : List (String × Nat)) :
    (qs.foldl (fun st qk => (findRelevantChunks disk qk.1 qk.2 st).2)
      (loadKnowledge disk s).2) = (loadKnowledge disk s).2 ∧
    (loadKnowledge disk s).2.cache = some (loadKnowledge disk s).1 := by
  refine ⟨?_, loadKnowledge_cache disk s⟩
  have hsome : (loadKnowledge disk s).2.cache.isSome := by
    rw [loadKnowledge_cache]
    rfl
  have hfold : ∀ (qs2 : List (String × Nat)) (st : KStore), st.cache.isSome →
      qs2.foldl (fun st qk => (findRelevantChunks disk qk.1 qk.2 st).2) st = st := by
    intro qs2
    induction qs2 with
    | nil =>
      intro st _
      rfl
    | cons qk qs2 ih =>
      intro st hsome2
      rw [List.foldl_cons, findRelevantChunks_store_id disk qk.1 qk.2 st hsome2]
      exact ih st hsome2
  exact hfold qs _ hsome

/-- C8: when the gateway fails with an AgentError, ask rethrows that exact
error unchanged, synthesizes no AskResult, and hands nothing to the Trace
Recorder — tracing happens only for completed interactions. -/
theorem c8_agent_error_propagated (disk : List Chunk) (s : KStore)
    (gw : String → String → Except AgentError ModelCallResult)
    (traceId : String) (sessionId : Option String) (lat : Nat) (q : String)
    (chunks : List ScoredChunk) (e : AgentError)
    (h1 : (findRelevantChunks disk q 3 s).1 = .ok chunks)
    (h2 : gw (SYSTEM_PROMPT_TEMPLATE chunks) q = .error e) :
    (ask disk gw traceId sessionId lat q s).result = .error (.agent e) ∧
    (ask disk gw traceId sessionId lat q s).traces = [] ∧
    (ask disk gw traceId sessionId lat q s).store =
      (findRelevantChunks disk q 3 s).2 := by
  have hask : ask disk gw traceId sessionId lat q s =
      ⟨.error (.agent e), (findRelevantChunks disk q 3 s).2, []⟩ := by
    simp only [ask, h1, h2]
  rw [hask]
  exact ⟨rfl, rfl, rfl⟩

/-- Witness for C8 with a gateway failing with a concrete AgentError. -/
theorem c8_agent_error_propagated_witness :
    (ask [] (fun _ _ => .error (mkAgentError "Claude API call failed after retries"
        ⟨"boom", some 500⟩)) "tid" none 5 "hi" ⟨some []⟩).result =
      .error (.agent (mkAgentError "Claude API call failed after retries"
        ⟨"boom", some 500⟩)) ∧
    (ask [] (fun _ _ => .error (mkAgentError "Claude API call failed after retries"
        ⟨"boom", some 500⟩)) "tid" none 5 "hi" ⟨some []⟩).traces = [] ∧
    (ask [] (fun _ _ => .error (mkAgentError "Claude API call failed after retries"
        ⟨"boom", some 500⟩)) "tid" none 5 "hi" ⟨some []⟩).store =
      (findRelevantChunks [] "hi" 3 ⟨some []⟩).2 :=
  c8_agent_error_propagated [] ⟨some []⟩ _ "tid" none 5 "hi" []
    (mkAgentError "Claude API call failed after retries" ⟨"boom", some 500⟩) rfl rfl

end AgentDemo
